import Mathlib

/-!
Verification of the WHOIS client library (`src/lib.rs`) against its
natural-language specification.  The Rust code is shallowly embedded:
pure functions become Lean functions, the network is an explicit oracle,
fallible code returns `Except`, and Rust panics are modelled by a
dedicated result constructor.
-/

namespace WhoisRust

/-- Kind of a host literal: a domain name, an IPv4 address or an IPv6
address (`validators::host::Host` has exactly these three variants). -/
inductive HostKind
  | domain
  | ipv4
  | ipv6
  deriving DecidableEq

/-- Modelled from the spec: `validators::host::HostLocalable` (the external
validators crate, whose source is not part of this repository).  Per the
spec a host literal is a domain, an IPv4 address or an IPv6 address, each
with an optional port.  `full` is the string returned by the crate's
`get_full_domain` / `get_full_ipv4` / `get_full_ipv6` accessor: the whole
literal, including the port when one is present. -/
structure HostLocalable where
  kind : HostKind
  full : String
  hasPort : Bool
  deriving DecidableEq

/-- Characters allowed in the body of a domain or IPv4 literal. -/
def isHostBodyChar (c : Char) : Bool :=
  c.isAlphanum || c == '.' || c == '-'

/-- Split a character list on a separator character (used instead of
`String.splitOn`, whose core implementation is not structurally
recursive).  The result is always non-empty. -/
def splitOnChar (sep : Char) : List Char → List (List Char)
  | [] => [[]]
  | c :: rest =>
    if c = sep then [] :: splitOnChar sep rest
    else
      match splitOnChar sep rest with
      | [] => [[c]]
      | g :: gs => (c :: g) :: gs

/-- Modelled from the spec: a decimal digit sequence usable as a port. -/
def portOk (p : List Char) : Bool :=
  !p.isEmpty && p.all Char.isDigit && p.length ≤ 5

/-- Modelled from the spec: a dotted-quad IPv4 literal. -/
def isIpv4Chars (cs : List Char) : Bool :=
  let ps := splitOnChar '.' cs
  ps.length == 4 && ps.all (fun p => !p.isEmpty && p.all Char.isDigit && p.length ≤ 3)

/-- Modelled from the spec: a bare domain literal (non-empty dot-separated
labels over alphanumeric characters and dashes). -/
def domainChars (cs : List Char) : Bool :=
  !cs.isEmpty && cs.all isHostBodyChar && (splitOnChar '.' cs).all (fun l => !l.isEmpty)

/-- Modelled from the spec: a bare IPv6 literal (hex digits and at least
two colons). -/
def ipv6Chars (cs : List Char) : Bool :=
  !cs.isEmpty &&
    cs.all (fun c => c.isDigit || ('a' ≤ c && c ≤ 'f') || ('A' ≤ c && c ≤ 'F') || c == ':') &&
    2 ≤ (cs.filter (fun c => c == ':')).length

/-- Split a bracketed IPv6-with-port literal at the first `]:`. -/
def bracketSplit : List Char → Option (List Char × List Char)
  | [] => none
  | ']' :: ':' :: p => some ([], p)
  | c :: rest => (bracketSplit rest).map (fun ap => (c :: ap.1, ap.2))

/-- Modelled from the spec: `HostLocalable::from_str` of the external
validators crate (not in this repository's sources).  A host literal is a
domain, an IPv4 address or an IPv6 address, optionally carrying a port
(IPv6-with-port in bracketed form). -/
def HostLocalable.from_str (s : String) : Option HostLocalable :=
  if isIpv4Chars s.data then some ⟨HostKind.ipv4, s, false⟩
  else if domainChars s.data then some ⟨HostKind.domain, s, false⟩
  else if ipv6Chars s.data then some ⟨HostKind.ipv6, s, false⟩
  else
    match splitOnChar ':' s.data with
    | [h, p] =>
      if portOk p then
        if isIpv4Chars h then some ⟨HostKind.ipv4, s, true⟩
        else if domainChars h then some ⟨HostKind.domain, s, true⟩
        else none
      else none
    | _ =>
      match s.data with
      | '[' :: rest =>
        match bracketSplit rest with
        | some (a, p) => if ipv6Chars a && portOk p then some ⟨HostKind.ipv6, s, true⟩ else none
        | none => none
      | _ => none

/-- The model of a WHOIS server (`WhoIsServerValue` in `src/lib.rs`). -/
structure WhoIsServerValue where
  host : HostLocalable
  query : Option String
  punycode : Bool
  deriving DecidableEq

/-- Default number of redirects to follow (`DEFAULT_FOLLOW`). -/
def DEFAULT_FOLLOW : Nat := 2

/-- Default socket timeout in milliseconds (`DEFAULT_TIMEOUT`). -/
def DEFAULT_TIMEOUT : Nat := 60000

/-- Default WHOIS port (`DEFAULT_WHOIS_HOST_PORT`). -/
def DEFAULT_WHOIS_HOST_PORT : Nat := 43

/-- Default query template (`DEFAULT_WHOIS_HOST_QUERY`). -/
def DEFAULT_WHOIS_HOST_QUERY : String := "$addr\r\n"

/-- Default punycode flag (`DEFAULT_PUNYCODE`). -/
def DEFAULT_PUNYCODE : Bool := true

/-- The error enumeration of the library (`WhoIsError` in `src/lib.rs`).
The payloads irrelevant to control flow are dropped; `retryError` is the
variant used to smuggle the next server and the remaining budget out of
`_lookup_inner`. -/
inductive WhoIsError
  | serdeJsonError
  | ioError
  | domainError
  | ipv4Error
  | ipv6Error
  | timeoutError
  | mapError (msg : String)
  | retryError (server : WhoIsServerValue) (follow : Nat)
  deriving DecidableEq

deriving instance DecidableEq for Except

/-- Errors the network can produce (resolution, connection, IO and
timeout failure).  Kept separate from `WhoIsError` so that a network
oracle can never fabricate a `retryError`. -/
inductive NetError
  | ioError
  | timeoutError
  deriving DecidableEq

/-- Injection of network errors into the library's error type; `?` in the
Rust source performs the corresponding `From` conversions. -/
def NetError.toWhoIsError : NetError → WhoIsError
  | NetError.ioError => WhoIsError.ioError
  | NetError.timeoutError => WhoIsError.timeoutError

/-- JSON values, as parsed by serde_json (`serde_json::Value`). -/
inductive Json
  | null
  | bool (b : Bool)
  | num (n : Int)
  | str (s : String)
  | arr (xs : List Json)
  | obj (fields : List (String × Json))

/-- Lookup of a key in a JSON object's field list (`Map::get`; keys are
unique after parsing, so first match suffices). -/
def jget (fields : List (String × Json)) (key : String) : Option Json :=
  (fields.find? (fun kv => kv.1 == key)).map (fun kv => kv.2)

/-- Test for the null JSON value (`Value::is_null`). -/
def Json.isNull : Json → Bool
  | Json.null => true
  | _ => false

/-- Test for a JSON object (`Value::is_object`). -/
def Json.isObject : Json → Bool
  | Json.obj _ => true
  | _ => false

/-- Test for a JSON string (`Value::as_str().is_some()`). -/
def Json.isString : Json → Bool
  | Json.str _ => true
  | _ => false

/-- The `query` field of a server object: absent is fine, present must be
a string (`WhoIsServerValue::from_value`, `query` arm). -/
def parseQueryField (fields : List (String × Json)) : Except WhoIsError (Option String) :=
  match jget fields "query" with
  | some (Json.str qs) => Except.ok (some qs)
  | some _ => Except.error (WhoIsError.mapError
      "The server value is an object, but it has an incorrect query string.")
  | none => Except.ok none

/-- The `punycode` field of a server object: absent defaults to
`DEFAULT_PUNYCODE`, present must be a boolean. -/
def parsePunycodeField (fields : List (String × Json)) : Except WhoIsError Bool :=
  match jget fields "punycode" with
  | some (Json.bool b) => Except.ok b
  | some _ => Except.error (WhoIsError.mapError
      "The server value is an object, but it has an incorrect punycode boolean value.")
  | none => Except.ok DEFAULT_PUNYCODE

/-- Embedding of `WhoIsServerValue::from_string`: the bare-string
shorthand form of a server entry (default query template, default
punycode flag). -/
def WhoIsServerValue.from_string (s : String) : Except WhoIsError WhoIsServerValue :=
  match HostLocalable.from_str s with
  | some host => Except.ok ⟨host, none, DEFAULT_PUNYCODE⟩
  | none => Except.error (WhoIsError.mapError
      "The server value is not a correct host string.")

/-- Embedding of `WhoIsServerValue::from_value`: a server entry is either
an object with a mandatory `host` string (plus optional `query` string and
`punycode` boolean) or a bare host string. -/
def WhoIsServerValue.from_value (value : Json) : Except WhoIsError WhoIsServerValue :=
  match value with
  | Json.obj fields =>
    match jget fields "host" with
    | some (Json.str hs) =>
      match HostLocalable.from_str hs with
      | some host =>
        match parseQueryField fields with
        | Except.error e => Except.error e
        | Except.ok query =>
          match parsePunycodeField fields with
          | Except.error e => Except.error e
          | Except.ok punycode => Except.ok ⟨host, query, punycode⟩
      | none => Except.error (WhoIsError.mapError
          "The server value is an object, but it has not a correct host string.")
    | some _ => Except.error (WhoIsError.mapError
        "The server value is an object, but it has not a host string.")
    | none => Except.error (WhoIsError.mapError
        "The server value is an object, but it has not a host string.")
  | Json.str s => WhoIsServerValue.from_string s
  | _ => Except.error (WhoIsError.mapError
      "The server value is not an object or a host string.")

/-- The in-memory server registry (`WhoIs` in `src/lib.rs`): the TLD map
(modelled as an association list; the Rust `HashMap` is only read through
`get`) and the mandatory IP fallback entry. -/
structure WhoIs where
  map : List (String × WhoIsServerValue)
  ip : WhoIsServerValue
  deriving DecidableEq

/-- Removal of a key from the JSON map (`map.remove("_")`; parsed JSON
maps have unique keys). -/
def removeKey (m : List (String × Json)) (key : String) : List (String × Json) :=
  m.filter (fun kv => kv.1 != key)

/-- The loop of `WhoIs::from_inner` over the remaining entries: null
values are dropped, any other value must parse as a server entry, and the
first parse failure aborts construction. -/
def buildMap : List (String × Json) → Except WhoIsError (List (String × WhoIsServerValue))
  | [] => Except.ok []
  | (k, v) :: rest =>
    if v.isNull then buildMap rest
    else
      match WhoIsServerValue.from_value v with
      | Except.error e => Except.error e
      | Except.ok sv =>
        match buildMap rest with
        | Except.error e => Except.error e
        | Except.ok m => Except.ok ((k, sv) :: m)

/-- Embedding of `WhoIs::from_inner`: registry construction from a parsed
JSON map.  The reserved key `_` must be present, be an object, and hold a
non-null `ip` entry that parses as a server value; every other non-null
entry must parse as a server value. -/
def WhoIs.from_inner (m : List (String × Json)) : Except WhoIsError WhoIs :=
  match jget m "_" with
  | none => Except.error (WhoIsError.mapError "Cannot find `_` in the server list.")
  | some server =>
    match server with
    | Json.obj fields =>
      match jget fields "ip" with
      | none => Except.error (WhoIsError.mapError
          "Cannot find `ip` in the `_` object in the server list.")
      | some ipv =>
        if ipv.isNull then Except.error (WhoIsError.mapError
            "`ip` in the `_` object in the server list is null.")
        else
          match WhoIsServerValue.from_value ipv with
          | Except.error e => Except.error e
          | Except.ok ip =>
            match buildMap (removeKey m "_") with
            | Except.error e => Except.error e
            | Except.ok newMap => Except.ok ⟨newMap, ip⟩
    | _ => Except.error (WhoIsError.mapError "`_` in the server list is not an object.")

/-- The header labels of the referral regular expression
`REF_SERVER_RE`, in the order they appear in the alternation. -/
def refLabels : List String :=
  ["ReferralServer", "Registrar Whois", "Whois Server", "WHOIS Server",
   "Registrar WHOIS Server"]

/-- Attempt to match one of the referral labels followed by a colon at
the head of the character list, returning the remainder after the colon.
No label followed by a colon is a prefix of another, so at most one
alternative matches at a given position. -/
def labelColonAt (cs : List Char) : Option (List Char) :=
  refLabels.findSome? (fun l =>
    if List.isPrefixOf (l.data ++ [':']) cs then some (cs.drop (l.length + 1)) else none)

/-- Scan for the leftmost position where the referral pattern matches,
returning the remainder after the matched label and colon (the regex
engine reports the leftmost match of the whole pattern). -/
def findLabelRemainder : List Char → Option (List Char)
  | [] => none
  | c :: rest =>
    match labelColonAt (c :: rest) with
    | some r => some r
    | none => findLabelRemainder rest

/-- Whitespace other than a newline: the character class written
inside the referral pattern between the colon and the host. -/
def isInlineSpace (c : Char) : Bool :=
  c.isWhitespace && c != '\n'

/-- Strip an optional `whois://` or `rwhois://` scheme, the optional
group of the referral pattern. -/
def dropScheme (cs : List Char) : List Char :=
  if List.isPrefixOf "rwhois://".data cs then cs.drop 9
  else if List.isPrefixOf "whois://".data cs then cs.drop 8
  else cs

/-- Embedding of `REF_SERVER_RE.captures(text)` followed by `c.get(3)`:
the third capture group is the rest of the line after the label, the
colon, optional inline whitespace and an optional scheme.  (The final
group matches any characters up to the end of the line, so it is present
whenever the pattern matches at all.) -/
def refServerCapture3 (text : String) : Option String :=
  (findLabelRemainder text.data).map (fun r =>
    String.mk ((dropScheme (r.dropWhile isInlineSpace)).takeWhile (fun c => c != '\n')))

/-- The `addr` string computed at the start of `_lookup_inner`: the full
host literal, with the default WHOIS port 43 appended when the literal
carries no port (IPv6 literals are bracketed first). -/
def serverAddr (server : WhoIsServerValue) : String :=
  match server.host.kind with
  | HostKind.domain =>
    if server.host.hasPort then server.host.full else server.host.full ++ ":43"
  | HostKind.ipv4 =>
    if server.host.hasPort then server.host.full else server.host.full ++ ":43"
  | HostKind.ipv6 =>
    if server.host.hasPort then server.host.full else "[" ++ server.host.full ++ "]:43"

/-- The outgoing message of `_lookup_inner`: the entry's query template
(default `"$addr\r\n"`) with every `$addr` token replaced by the target
text. -/
def queryOf (server : WhoIsServerValue) (text : String) : String :=
  (server.query.getD DEFAULT_WHOIS_HOST_QUERY).replace "$addr" text

/-- A network oracle for the query phase: given the configured timeout,
the dialed `host:port` address string and the outgoing message, it
produces either the full response text read until the peer closes the
connection, or the network error of whichever step failed (resolution,
connection, write, flush or read). -/
def Net : Type :=
  Option Nat → String → String → Except NetError String

/-- Embedding of `WhoIs::_lookup_inner`: dial the server, send the query,
read the response; then, when the follow budget is positive, run the
referral pattern over the response, and if the captured host differs from
the dialed address string and parses as a server value, surface it as a
`retryError` carrying the decremented budget.  In every other case the
response text is the result. -/
def _lookup_inner (net : Net) (server : WhoIsServerValue) (text : String)
    (timeout : Option Nat) (follow : Nat) : Except WhoIsError String :=
  let addr := serverAddr server
  match net timeout addr (queryOf server text) with
  | Except.error e => Except.error e.toWhoIsError
  | Except.ok query_result =>
    if follow > 0 then
      match refServerCapture3 query_result with
      | some h =>
        if h ≠ addr then
          match WhoIsServerValue.from_string h with
          | Except.ok server2 => Except.error (WhoIsError.retryError server2 (follow - 1))
          | Except.error _ => Except.ok query_result
        else Except.ok query_result
      | none => Except.ok query_result
    else Except.ok query_result

/-- Embedding of `WhoIs::lookup_inner`: the caller loop that unwinds the
`retryError` channel.  While the budget is positive it runs
`_lookup_inner` with the current budget, switching to the carried server
on a retry; a zero budget yields the `Max follow` failure.  The recursion
continues with `n = (n + 1) - 1`, which by `_lookup_inner_retry` is
exactly the budget carried inside the `retryError`. -/
def lookup_inner (net : Net) (server : WhoIsServerValue) (text : String)
    (timeout : Option Nat) (follow : Nat) : Except WhoIsError String :=
  match follow with
  | 0 => Except.error (WhoIsError.mapError "Max follow")
  | n + 1 =>
    match _lookup_inner net server text timeout (n + 1) with
    | Except.error (WhoIsError.retryError s _f) => lookup_inner net s text timeout n
    | Except.ok x => Except.ok x
    | Except.error e => Except.error e

/-- A lookup target, already validated externally (`Target` in
`src/lib.rs`).  Each variant carries the string its `get_full_*` accessor
returns. -/
inductive Target
  | domain (full : String)
  | ipv4 (full : String)
  | ipv6 (full : String)
  deriving DecidableEq

/-- The options of a lookup (`WhoIsLookupOptions`). -/
structure WhoIsLookupOptions where
  target : Target
  server : Option WhoIsServerValue
  follow : Nat
  timeout : Option Nat
  deriving DecidableEq

/-- Result of a lookup run, with Rust panics made explicit. -/
inductive RunResult
  | ok (s : String)
  | err (e : WhoIsError)
  | panicked
  deriving DecidableEq

/-- Lift the `Result` of the inner loop into a `RunResult`. -/
def ofExcept : Except WhoIsError String → RunResult
  | Except.ok s => RunResult.ok s
  | Except.error e => RunResult.err e

/-- Lookup of a key in the TLD map (`self.map.get(tld)`). -/
def mapGet (m : List (String × WhoIsServerValue)) (key : String) : Option WhoIsServerValue :=
  (m.find? (fun kv => kv.1 == key)).map (fun kv => kv.2)

/-- One stripping step of the selection loop: `tld.find('.')` either
drops everything up to and including the first dot, or, when no dot
remains, empties the string. -/
def stripLabel (cs : List Char) : List Char :=
  match cs.dropWhile (fun c => c != '.') with
  | [] => []
  | _ :: rest => rest

/-- The selection loop of `WhoIs::lookup` for domain targets, written
with explicit fuel so that it is structurally recursive: each iteration
strictly shortens the suffix (`stripLabel_length_lt` below), so
`tld.length + 1` iterations always suffice and the fuel never runs out
(the suffix-chain refinement theorem below computes the loop without any
fuel). -/
def selectLoopF (m : List (String × WhoIsServerValue)) : Nat → List Char → Option WhoIsServerValue
  | 0, _ => none
  | fuel + 1, tld =>
    match mapGet m (String.mk tld) with
    | some s => some s
    | none =>
      if tld = [] then none
      else selectLoopF m fuel (stripLabel tld)

/-- Embedding of the selection loop of `WhoIs::lookup`: starting from the
full domain, look the current suffix up in the map; on a miss strip the
leftmost label and retry; when the suffix is empty and still missing,
give up. -/
def selectLoop (m : List (String × WhoIsServerValue)) (tld : List Char) :
    Option WhoIsServerValue :=
  selectLoopF m (tld.length + 1) tld

/-- Initial server choice for a domain target (the `server` binding at
the start of the `Target::Domain` arm of `WhoIs::lookup`): an explicit
override bypasses the registry entirely, otherwise the selection loop
runs on the full domain. -/
def resolveServer (w : WhoIs) (options : WhoIsLookupOptions) (full : String) :
    Option WhoIsServerValue :=
  match options.server with
  | some s => some s
  | none => selectLoop w.map full.data

/-- Embedding of `WhoIs::lookup`.  IP targets use the override or the IP
fallback entry.  Domain targets use the override or the selection loop;
a failed selection is the `no known server` error.  When the selected
entry's punycode flag is set, the domain is converted by the external
IDNA collaborator `toAscii` first, and the Rust source calls `.unwrap()`
on that conversion: a failed conversion is a panic, not an error value. -/
def WhoIs.lookup (w : WhoIs) (net : Net) (toAscii : String → Option String)
    (options : WhoIsLookupOptions) : RunResult :=
  match options.target with
  | Target.ipv4 full =>
    ofExcept (lookup_inner net (options.server.getD w.ip) full options.timeout options.follow)
  | Target.ipv6 full =>
    ofExcept (lookup_inner net (options.server.getD w.ip) full options.timeout options.follow)
  | Target.domain full =>
    match resolveServer w options full with
    | none => RunResult.err (WhoIsError.mapError
        "No whois server is known for this kind of object.")
    | some server =>
      if server.punycode then
        match toAscii full with
        | some punycodeDomain =>
          ofExcept (lookup_inner net server punycodeDomain options.timeout options.follow)
        | none => RunResult.panicked
      else
        ofExcept (lookup_inner net server full options.timeout options.follow)

/-- Oracles for the connection phase of `_lookup_inner` (lines 362-398):
the outcome of `to_socket_addrs` on the `host:port` string, the outcome
of one `connect_timeout` attempt per resolved socket address, the outcome
of `TcpStream::connect` on the raw address string (the branch taken when
no timeout is configured), and the outcomes of the write and flush on the
established connection.  Socket addresses are identified by strings. -/
structure NetOps where
  resolve : String → Except NetError (List String)
  connectTo : String → Except NetError Unit
  connectHost : String → Except NetError Unit
  writeRes : Except NetError Unit
  flushRes : Except NetError Unit

/-- The `for` loop over all resolved addresses but the last: the first
successful connection attempt wins, every failure is silently discarded
(`if let Ok(c) = Self::connect_timeout(..) { client = Some(c); break; }`). -/
def tryConnectFirst (ops : NetOps) : List String → Option String
  | [] => none
  | sa :: rest =>
    match ops.connectTo sa with
    | Except.ok _ => some sa
    | Except.error _ => tryConnectFirst ops rest

/-- Outcome of the connection phase, with the Rust panic made explicit. -/
inductive ConnResult
  | conn (sa : String)
  | err (e : NetError)
  | panicked
  deriving DecidableEq

/-- Embedding of the connection phase of `_lookup_inner`.  With a
configured timeout the address is resolved explicitly; the code then
reads `socket_addrs[socket_addrs.len() - 1]`, which panics when the
resolution returned no address at all (modelled by the `getLast?`
returning `none`); otherwise every candidate but the last is tried with
failures discarded, and only when all of them fail is the last candidate
attempted, its outcome — success or error — being the one surfaced.
Without a timeout, `TcpStream::connect` is called on the address
string directly. -/
def connectPhase (ops : NetOps) (timeout : Option Nat) (addr : String) : ConnResult :=
  match timeout with
  | some _ =>
    match ops.resolve addr with
    | Except.error e => ConnResult.err e
    | Except.ok socket_addrs =>
      match socket_addrs.getLast? with
      | none => ConnResult.panicked
      | some lastAddr =>
        match tryConnectFirst ops (socket_addrs.take (socket_addrs.length - 1)) with
        | some sa => ConnResult.conn sa
        | none =>
          match ops.connectTo lastAddr with
          | Except.ok _ => ConnResult.conn lastAddr
          | Except.error e => ConnResult.err e
  | none =>
    match ops.connectHost addr with
    | Except.ok _ => ConnResult.conn addr
    | Except.error e => ConnResult.err e

/-- A blocking operation performed by `_lookup_inner`, together with the
deadline the code attaches to it (`none` when the operation is issued
without any timeout wrapper). -/
inductive IOOp
  | resolveAddrs
  | connectAttempt (deadline : Option Nat)
  | writeAll (deadline : Option Nat)
  | flushOp (deadline : Option Nat)
  | readToEnd (deadline : Option Nat)
  deriving DecidableEq

/-- The deadline attached to an operation. -/
def IOOp.deadline : IOOp → Option Nat
  | IOOp.resolveAddrs => none
  | IOOp.connectAttempt d => d
  | IOOp.writeAll d => d
  | IOOp.flushOp d => d
  | IOOp.readToEnd d => d

/-- Whether an operation is a connection attempt. -/
def IOOp.isConnectAttempt : IOOp → Bool
  | IOOp.connectAttempt _ => true
  | _ => false

/-- The operations issued on an established connection (lines 388-398 of
`src/lib.rs`): `write_all`, `flush` and `read_to_string`, each awaited
directly with no timeout wrapper (the `set_read_timeout` and
`set_write_timeout` calls of the historical blocking variant are
commented out), so each carries no deadline; a failure stops the
sequence via `?`. -/
def afterConnectOps (ops : NetOps) : List IOOp :=
  IOOp.writeAll none ::
    (match ops.writeRes with
     | Except.error _ => []
     | Except.ok _ =>
       IOOp.flushOp none ::
         (match ops.flushRes with
          | Except.error _ => []
          | Except.ok _ => [IOOp.readToEnd none]))

/-- The connection attempts of the loop over all candidates but the last:
each is a `connect_timeout` call carried out under the given deadline,
and the loop stops at the first success. -/
def connectAttemptOps (ops : NetOps) (deadline : Option Nat) : List String → List IOOp
  | [] => []
  | sa :: rest =>
    IOOp.connectAttempt deadline ::
      (match ops.connectTo sa with
       | Except.ok _ => []
       | Except.error _ => connectAttemptOps ops deadline rest)

/-- The trace of blocking operations issued by `_lookup_inner`, in order,
each paired with the deadline the code attaches to it.  With a timeout:
the explicit resolution (not wrapped in any timeout), the
`connect_timeout` attempts (each bounded by the timeout), and then the
write, flush and read on the connection (no wrapper).  Without a
timeout: `TcpStream::connect` resolves and connects with no deadline,
followed by the same unbounded write, flush and read. -/
def _lookup_inner_io (ops : NetOps) (timeout : Option Nat) (addr : String) : List IOOp :=
  match timeout with
  | some t =>
    IOOp.resolveAddrs ::
      (match ops.resolve addr with
       | Except.error _ => []
       | Except.ok socket_addrs =>
         match socket_addrs.getLast? with
         | none => []
         | some lastAddr =>
           let pre := socket_addrs.take (socket_addrs.length - 1)
           connectAttemptOps ops (some t) pre ++
             (match tryConnectFirst ops pre with
              | some _ => afterConnectOps ops
              | none =>
                IOOp.connectAttempt (some t) ::
                  (match ops.connectTo lastAddr with
                   | Except.ok _ => afterConnectOps ops
                   | Except.error _ => [])))
  | none =>
    IOOp.resolveAddrs :: IOOp.connectAttempt none ::
      (match ops.connectHost addr with
       | Except.ok _ => afterConnectOps ops
       | Except.error _ => [])

/-- UTF-8 continuation byte (`0x80..=0xBF`). -/
def isCont (b : Nat) : Bool :=
  0x80 ≤ b && b < 0xC0

/-- One UTF-8 sequence decoded from the head of the byte stream,
following exactly the validation ranges of Rust's `core::str` (which
`read_to_string` relies on): ASCII; two-byte sequences with lead
`0xC2..=0xDF`; three-byte sequences with lead `0xE0..=0xEF` and the
`E0`/`ED` restrictions excluding overlong forms and surrogates; four-byte
sequences with lead `0xF0..=0xF4` and the `F0`/`F4` restrictions.  The
scalar value and the remaining bytes are returned; any violation makes
the sequence invalid. -/
def decodeOne (b0 : Nat) (rest : List Nat) : Option (Nat × List Nat) :=
  if b0 < 0x80 then some (b0, rest)
  else if b0 < 0xC2 then none
  else if b0 < 0xE0 then
    match rest with
    | b1 :: rest1 =>
      if isCont b1 then some ((b0 - 0xC0) * 64 + (b1 - 0x80), rest1) else none
    | [] => none
  else if b0 < 0xF0 then
    match rest with
    | b1 :: b2 :: rest2 =>
      if ((b0 == 0xE0 && 0xA0 ≤ b1 && b1 < 0xC0) ||
          (0xE1 ≤ b0 && b0 < 0xED && isCont b1) ||
          (b0 == 0xED && 0x80 ≤ b1 && b1 < 0xA0) ||
          (0xEE ≤ b0 && isCont b1)) && isCont b2 then
        some ((b0 - 0xE0) * 4096 + (b1 - 0x80) * 64 + (b2 - 0x80), rest2)
      else none
    | _ => none
  else if b0 < 0xF5 then
    match rest with
    | b1 :: b2 :: b3 :: rest3 =>
      if ((b0 == 0xF0 && 0x90 ≤ b1 && b1 < 0xC0) ||
          (0xF1 ≤ b0 && b0 < 0xF4 && isCont b1) ||
          (b0 == 0xF4 && 0x80 ≤ b1 && b1 < 0x90)) && isCont b2 && isCont b3 then
        some ((b0 - 0xF0) * 262144 + (b1 - 0x80) * 4096 + (b2 - 0x80) * 64 + (b3 - 0x80),
          rest3)
      else none
    | _ => none
  else none

/-- The UTF-8 validation loop, written with explicit fuel so that it is
structurally recursive: each decoded sequence consumes at least one byte,
so fuel equal to the number of bytes always suffices
(`decodeUtf8F_fuel` below proves the fuel irrelevant). -/
def decodeUtf8F : Nat → List Nat → Option (List Char)
  | _, [] => some []
  | 0, _ :: _ => none
  | fuel + 1, b0 :: rest =>
    match decodeOne b0 rest with
    | some (v, rem) => (decodeUtf8F fuel rem).map (fun cs => Char.ofNat v :: cs)
    | none => none

/-- UTF-8 decoding of a whole byte sequence: every byte must belong to a
valid sequence, exactly as in Rust's `str::from_utf8` validation. -/
def decodeUtf8 (bytes : List Nat) : Option (List Char) :=
  decodeUtf8F bytes.length bytes

/-- Embedding of the read step of `_lookup_inner`
(`client.read_to_string(&mut query_result).await?`): all bytes are read
until the peer closes the connection and then validated as UTF-8;
invalid data is an IO error (`ErrorKind::InvalidData`), not a lossy
replacement. -/
def read_to_string (bytes : List Nat) : Except WhoIsError String :=
  match decodeUtf8 bytes with
  | some cs => Except.ok (String.mk cs)
  | none => Except.error WhoIsError.ioError

/-- UTF-8 encoding of one scalar value (the standard encoder; used on the
specification side to state what a lossless decode must return). -/
def utf8EncodeChar (c : Char) : List Nat :=
  let v := c.toNat
  if v < 0x80 then [v]
  else if v < 0x800 then [0xC0 + v / 64, 0x80 + v % 64]
  else if v < 0x10000 then
    [0xE0 + v / 4096, 0x80 + (v / 64) % 64, 0x80 + v % 64]
  else
    [0xF0 + v / 262144, 0x80 + (v / 4096) % 64, 0x80 + (v / 64) % 64, 0x80 + v % 64]

/-- UTF-8 encoding of a string. -/
def utf8Encode (s : String) : List Nat :=
  s.data.foldr (fun c acc => utf8EncodeChar c ++ acc) []

/-- Specification-side description of the selection policy: the chain of
suffixes obtained by repeatedly stripping the leftmost label, ending with
the empty suffix (the catch-all key).  This definition follows the words
of the spec, to be compared with the loop embedded from the source. -/
def stripChain (tld : List Char) : List (List Char) :=
  tld ::
    (if h : tld = [] then [] else stripChain (stripLabel tld))
termination_by tld.length
decreasing_by
  unfold stripLabel
  rcases hd : tld.dropWhile (fun c => c != '.') with _ | ⟨c, rest⟩
  · simpa using List.length_pos.mpr h
  · have hle := (List.dropWhile_sublist (l := tld) (fun c => c != '.')).length_le
    rw [hd] at hle
    simp only [List.length_cons] at hle
    exact Nat.lt_of_lt_of_le (Nat.lt_succ_self _) hle

/-- Specification-side selection: the entry of the first suffix in the
strip chain that is a registry key (`none` when no suffix, not even the
catch-all, is registered). -/
def specSelect (m : List (String × WhoIsServerValue)) (tld : List Char) :
    Option WhoIsServerValue :=
  (stripChain tld).findSome? (fun k => mapGet m (String.mk k))

/-- A response offers a followable referral with respect to the dialed
address when the referral pattern captures a host that differs from that
address and parses as a server value (exactly the condition under which
`_lookup_inner` produces a `retryError`). -/
def followableReferral (resp addr : String) : Bool :=
  match refServerCapture3 resp with
  | some h => h != addr && (WhoIsServerValue.from_string h).isOk
  | none => false

/-- Fixture: the PIR WHOIS host. -/
def exHostPir : HostLocalable := ⟨HostKind.domain, "whois.pir.org", false⟩

/-- Fixture: a registry entry for the PIR server with default query
template and punycode flag. -/
def exServerPir : WhoIsServerValue := ⟨exHostPir, none, true⟩

/-- Fixture: the ARIN WHOIS host. -/
def exHostArin : HostLocalable := ⟨HostKind.domain, "whois.arin.net", false⟩

/-- Fixture: the IP fallback entry. -/
def exServerArin : WhoIsServerValue := ⟨exHostArin, none, true⟩

/-- Fixture: a registry knowing the `org` suffix, with ARIN as the IP
fallback. -/
def exRegistryOrg : WhoIs := ⟨[("org", exServerPir)], exServerArin⟩

/-- Fixture: a network on which every server answers `hello`. -/
def exNetHello : Net := fun _ _ _ => Except.ok "hello"

/-- Fixture: a network on which the PIR server issues a referral and
every other server answers `final answer`. -/
def exNetReferral : Net := fun _ addr _ =>
  if addr = "whois.pir.org:43" then
    Except.ok "Registrar WHOIS Server: whois.example-registrar.com\nrest"
  else Except.ok "final answer"

/-- Fixture: a network on which every server issues a referral whose
captured host does not parse as a host literal. -/
def exNetBadReferral : Net := fun _ _ _ => Except.ok "Whois Server: @@@@"

/-- Fixture: an IDNA conversion that accepts every domain unchanged. -/
def idAscii : String → Option String := fun s => some s

/-- Fixture: an IDNA conversion that fails on every domain. -/
def noAscii : String → Option String := fun _ => none

/-- Fixture: lookup options for `example.org` with a zero follow budget
and no timeout, override or punycode conversion obstacle. -/
def exOptsFollow0 : WhoIsLookupOptions := ⟨Target.domain "example.org", none, 0, none⟩

/-- Fixture: connection oracles that resolve to no socket address at all. -/
def exOpsEmptyResolve : NetOps :=
  ⟨fun _ => Except.ok [], fun _ => Except.error NetError.ioError,
   fun _ => Except.ok (), Except.ok (), Except.ok ()⟩

/-- Fixture: connection oracles with a single resolved address and every
step succeeding. -/
def exOpsHappy : NetOps :=
  ⟨fun _ => Except.ok ["192.0.2.1:43"], fun _ => Except.ok (),
   fun _ => Except.ok (), Except.ok (), Except.ok ()⟩

/-- Fixture: connection oracles resolving to two addresses, of which only
the second accepts a connection. -/
def exOpsSecondWorks : NetOps :=
  ⟨fun _ => Except.ok ["192.0.2.1:43", "192.0.2.2:43"],
   fun sa => if sa = "192.0.2.2:43" then Except.ok () else Except.error NetError.ioError,
   fun _ => Except.ok (), Except.ok (), Except.ok ()⟩

/-- Fixture: connection oracles resolving to two addresses, of which the
first accepts a connection. -/
def exOpsFirstWorks : NetOps :=
  ⟨fun _ => Except.ok ["192.0.2.1:43", "192.0.2.2:43"],
   fun sa => if sa = "192.0.2.1:43" then Except.ok () else Except.error NetError.ioError,
   fun _ => Except.ok (), Except.ok (), Except.ok ()⟩

/-- A `retryError` produced by `_lookup_inner` always carries exactly the
decremented budget `follow - 1` (in particular the budget was positive),
which justifies the structural recursion of `lookup_inner`. -/
theorem _lookup_inner_retry (net : Net) (server : WhoIsServerValue) (text : String)
    (timeout : Option Nat) (follow : Nat) (s : WhoIsServerValue) (f : Nat)
    (h : _lookup_inner net server text timeout follow =
      Except.error (WhoIsError.retryError s f)) :
    f = follow - 1 ∧ 0 < follow := by
  rcases hn : net timeout (serverAddr server) (queryOf server text) with e | r
  · simp only [_lookup_inner, hn] at h
    cases e <;> simp [NetError.toWhoIsError] at h
  · simp only [_lookup_inner, hn] at h
    by_cases hf : follow > 0
    · rw [if_pos hf] at h
      rcases hc : refServerCapture3 r with _ | cap
      · simp only [hc] at h
        simp at h
      · simp only [hc] at h
        by_cases hne : cap = serverAddr server
        · simp [hne] at h
        · rw [if_pos hne] at h
          rcases hs : WhoIsServerValue.from_string cap with e2 | s2
          · simp only [hs] at h
            simp at h
          · simp only [hs] at h
            simp at h
            exact ⟨h.2.symm, hf⟩
    · rw [if_neg hf] at h
      simp at h

/-- Stripping the leftmost label strictly shortens a non-empty suffix:
the selection loop therefore terminates, and `tld.length + 1` fuel always
suffices for `selectLoopF`. -/
theorem stripLabel_length_lt (cs : List Char) (h : cs ≠ []) :
    (stripLabel cs).length < cs.length := by
  unfold stripLabel
  rcases hd : cs.dropWhile (fun c => c != '.') with _ | ⟨c, rest⟩
  · simpa using List.length_pos.mpr h
  · have hle := (List.dropWhile_sublist (l := cs) (fun c => c != '.')).length_le
    rw [hd] at hle
    simp only [List.length_cons] at hle
    exact Nat.lt_of_lt_of_le (Nat.lt_succ_self _) hle

/-- C1: the claim states that a lookup whose follow budget is 0 from the
start returns the first selected server's raw response as the final
result and does not fail.  The code does the opposite: `lookup_inner`
only runs its loop while the budget is positive, so with `follow = 0` it
returns the `Max follow` error immediately, without ever dialing the
server — here concretely for `example.org` against a registry that knows
`org`, on a network whose servers all answer `hello`. -/
theorem c1_follow_zero_fails_max_follow :
    WhoIs.lookup exRegistryOrg exNetHello idAscii exOptsFollow0 =
      RunResult.err (WhoIsError.mapError "Max follow") ∧
    exNetHello none (serverAddr exServerPir) (queryOf exServerPir "example.org") =
      Except.ok "hello" := by
  constructor
  · decide
  · rfl

/-- C9: when a timeout is configured and address resolution returns an
empty list of socket addresses, the connection phase panics (the code
indexes `socket_addrs[socket_addrs.len() - 1]`) rather than returning a
network error; the no-timeout branch, by contrast, never panics. -/
theorem c9_empty_resolution_panics (ops : NetOps) (t : Nat) (addr : String)
    (h : ops.resolve addr = Except.ok []) :
    connectPhase ops (some t) addr = ConnResult.panicked ∧
    connectPhase ops none addr ≠ ConnResult.panicked := by
  constructor
  · simp [connectPhase, h]
  · rcases hc : ops.connectHost addr with e | u <;> simp [connectPhase, hc]

/-- Witness for C9 at concrete oracles whose resolution yields no
address. -/
theorem c9_empty_resolution_panics_witness :
    connectPhase exOpsEmptyResolve (some 60000) "whois.pir.org:43" = ConnResult.panicked ∧
    connectPhase exOpsEmptyResolve none "whois.pir.org:43" ≠ ConnResult.panicked :=
  c9_empty_resolution_panics exOpsEmptyResolve 60000 "whois.pir.org:43" rfl

/-- C10: for a domain target whose resolved server has the punycode flag
set, the code calls `.unwrap()` on the IDNA conversion, so a failing
conversion is a panic, never an error value. -/
theorem c10_punycode_failure_panics (w : WhoIs) (net : Net)
    (toAscii : String → Option String) (options : WhoIsLookupOptions)
    (full : String) (server : WhoIsServerValue)
    (htarget : options.target = Target.domain full)
    (hserver : resolveServer w options full = some server)
    (hpuny : server.punycode = true)
    (hascii : toAscii full = none) :
    WhoIs.lookup w net toAscii options = RunResult.panicked := by
  simp only [WhoIs.lookup, htarget, hserver, hpuny, hascii, if_true]

/-- Witness for C10: a unicode domain whose `org` entry wants punycode,
with an IDNA conversion that fails. -/
theorem c10_punycode_failure_panics_witness :
    WhoIs.lookup exRegistryOrg exNetHello noAscii
      ⟨Target.domain "exämple.org", none, 2, none⟩ = RunResult.panicked :=
  c10_punycode_failure_panics exRegistryOrg exNetHello noAscii
    ⟨Target.domain "exämple.org", none, 2, none⟩ "exämple.org" exServerPir
    rfl (by decide) rfl rfl

/-- C7 (amended): registry construction fails deterministically, at
construction time, whenever the reserved `_` key is absent, its value is
not an object, or the nested `ip` entry is absent, null, neither an
object nor a string, or a string that fails host-literal parsing; but an
`ip` entry that is a bare string parsing as a host literal is accepted
(the shorthand form), so `not an object` alone is not a failure
condition. -/
theorem c7_registry_construction_errors :
    (∀ m, jget m "_" = none →
      WhoIs.from_inner m =
        Except.error (WhoIsError.mapError "Cannot find `_` in the server list.")) ∧
    (∀ m v, jget m "_" = some v → v.isObject = false →
      WhoIs.from_inner m =
        Except.error (WhoIsError.mapError "`_` in the server list is not an object.")) ∧
    (∀ m fields, jget m "_" = some (Json.obj fields) → jget fields "ip" = none →
      WhoIs.from_inner m =
        Except.error (WhoIsError.mapError
          "Cannot find `ip` in the `_` object in the server list.")) ∧
    (∀ m fields, jget m "_" = some (Json.obj fields) → jget fields "ip" = some Json.null →
      WhoIs.from_inner m =
        Except.error (WhoIsError.mapError
          "`ip` in the `_` object in the server list is null.")) ∧
    (∀ m fields ipv, jget m "_" = some (Json.obj fields) → jget fields "ip" = some ipv →
      ipv.isObject = false → ipv.isString = false → ipv.isNull = false →
      WhoIs.from_inner m =
        Except.error (WhoIsError.mapError
          "The server value is not an object or a host string.")) ∧
    (∀ m fields s, jget m "_" = some (Json.obj fields) →
      jget fields "ip" = some (Json.str s) → HostLocalable.from_str s = none →
      WhoIs.from_inner m =
        Except.error (WhoIsError.mapError
          "The server value is not a correct host string.")) ∧
    (∀ s host, HostLocalable.from_str s = some host →
      WhoIsServerValue.from_value (Json.str s) =
        Except.ok ⟨host, none, DEFAULT_PUNYCODE⟩) := by
  refine ⟨?_, ?_, ?_, ?_, ?_, ?_, ?_⟩
  · intro m h
    simp [WhoIs.from_inner, h]
  · intro m v h hv
    simp only [WhoIs.from_inner, h]
    cases v <;> simp_all [Json.isObject]
  · intro m fields h hip
    simp [WhoIs.from_inner, h, hip]
  · intro m fields h hip
    simp [WhoIs.from_inner, h, hip, Json.isNull]
  · intro m fields ipv h hip hobj hstr hnull
    simp only [WhoIs.from_inner, h, hip]
    cases ipv <;>
      simp_all [Json.isObject, Json.isString, Json.isNull, WhoIsServerValue.from_value]
  · intro m fields s h hip hparse
    simp only [WhoIs.from_inner, h, hip]
    simp [Json.isNull, WhoIsServerValue.from_value, WhoIsServerValue.from_string, hparse]
  · intro s host h
    simp [WhoIsServerValue.from_value, WhoIsServerValue.from_string, h]

/-- Witness for C7, exercising every conjunct at concrete configuration
maps: `_` missing, `_` a string, `ip` missing, `ip` null, `ip` a number,
`ip` a string that fails host-literal parsing, and a bare-string `ip`
entry parsing as a host value. -/
theorem c7_registry_construction_errors_witness :
    WhoIs.from_inner [] =
      Except.error (WhoIsError.mapError "Cannot find `_` in the server list.") ∧
    WhoIs.from_inner [("_", Json.str "x")] =
      Except.error (WhoIsError.mapError "`_` in the server list is not an object.") ∧
    WhoIs.from_inner [("_", Json.obj [])] =
      Except.error (WhoIsError.mapError
        "Cannot find `ip` in the `_` object in the server list.") ∧
    WhoIs.from_inner [("_", Json.obj [("ip", Json.null)])] =
      Except.error (WhoIsError.mapError
        "`ip` in the `_` object in the server list is null.") ∧
    WhoIs.from_inner [("_", Json.obj [("ip", Json.num 7)])] =
      Except.error (WhoIsError.mapError
        "The server value is not an object or a host string.") ∧
    WhoIs.from_inner [("_", Json.obj [("ip", Json.str "@@")])] =
      Except.error (WhoIsError.mapError
        "The server value is not a correct host string.") ∧
    WhoIsServerValue.from_value (Json.str "whois.arin.net") =
      Except.ok ⟨⟨HostKind.domain, "whois.arin.net", false⟩, none, DEFAULT_PUNYCODE⟩ :=
  ⟨c7_registry_construction_errors.1 [] rfl,
   c7_registry_construction_errors.2.1 [("_", Json.str "x")] (Json.str "x") rfl rfl,
   c7_registry_construction_errors.2.2.1 [("_", Json.obj [])] [] rfl rfl,
   c7_registry_construction_errors.2.2.2.1 [("_", Json.obj [("ip", Json.null)])]
     [("ip", Json.null)] rfl rfl,
   c7_registry_construction_errors.2.2.2.2.1 [("_", Json.obj [("ip", Json.num 7)])]
     [("ip", Json.num 7)] (Json.num 7) rfl rfl rfl rfl rfl,
   c7_registry_construction_errors.2.2.2.2.2.1 [("_", Json.obj [("ip", Json.str "@@")])]
     [("ip", Json.str "@@")] "@@" rfl rfl (by decide),
   c7_registry_construction_errors.2.2.2.2.2.2 "whois.arin.net"
     ⟨HostKind.domain, "whois.arin.net", false⟩ (by decide)⟩

/-- Counterexample for C7 as stated: the claim asserts construction fails
whenever the `ip` entry is not an object, but a bare-string `ip` entry
(`whois.arin.net`) constructs a registry successfully. -/
theorem c7_string_ip_accepted_cex :
    (WhoIs.from_inner [("_", Json.obj [("ip", Json.str "whois.arin.net")])]).isOk = true ∧
    (Json.str "whois.arin.net").isObject = false := by
  constructor
  · decide
  · rfl

/-- C8: the referral step never produces a referral whose captured host
string equals the `host:port` address actually dialed (every `retryError`
comes from a capture that differs from the dialed address and parses as a
server value), and a captured host that fails to parse produces no
referral: the response is returned as the final result, not as an
error. -/
theorem c8_referral_guard (net : Net) (server : WhoIsServerValue) (text : String)
    (timeout : Option Nat) (follow : Nat) :
    (∀ s f, _lookup_inner net server text timeout follow =
        Except.error (WhoIsError.retryError s f) →
      ∃ resp hcap, net timeout (serverAddr server) (queryOf server text) = Except.ok resp ∧
        refServerCapture3 resp = some hcap ∧ hcap ≠ serverAddr server ∧
        WhoIsServerValue.from_string hcap = Except.ok s) ∧
    (∀ resp hcap e, net timeout (serverAddr server) (queryOf server text) = Except.ok resp →
      refServerCapture3 resp = some hcap →
      WhoIsServerValue.from_string hcap = Except.error e →
      _lookup_inner net server text timeout follow = Except.ok resp) := by
  constructor
  · intro s f h
    rcases hn : net timeout (serverAddr server) (queryOf server text) with e | r
    · simp only [_lookup_inner, hn] at h
      cases e <;> simp [NetError.toWhoIsError] at h
    · refine ⟨r, ?_⟩
      simp only [_lookup_inner, hn] at h
      by_cases hf : follow > 0
      · rw [if_pos hf] at h
        rcases hc : refServerCapture3 r with _ | cap
        · simp only [hc] at h
          simp at h
        · simp only [hc] at h
          by_cases hne : cap = serverAddr server
          · simp [hne] at h
          · rw [if_pos hne] at h
            rcases hs : WhoIsServerValue.from_string cap with e2 | s2
            · simp only [hs] at h
              simp at h
            · simp only [hs] at h
              simp at h
              exact ⟨cap, rfl, rfl, hne, by rw [hs, h.1]⟩
      · rw [if_neg hf] at h
        simp at h
  · intro resp hcap e hn hc hs
    simp only [_lookup_inner, hn]
    by_cases hf : follow > 0
    · rw [if_pos hf]
      simp only [hc]
      by_cases hne : hcap = serverAddr server
      · simp [hne]
      · rw [if_pos hne, hs]
    · rw [if_neg hf]

/-- Witness for C8: on a network whose referral captures `@@@@` (which
does not parse as a host literal), the response is final; and the
referral produced on the PIR fixture network is the registrar capture,
distinct from the dialed `whois.pir.org:43`. -/
theorem c8_referral_guard_witness :
    _lookup_inner exNetBadReferral exServerPir "example.org" none 2 =
      Except.ok "Whois Server: @@@@" ∧
    (∃ resp hcap,
      exNetReferral none (serverAddr exServerPir) (queryOf exServerPir "example.org") =
        Except.ok resp ∧
      refServerCapture3 resp = some hcap ∧ hcap ≠ serverAddr exServerPir ∧
      WhoIsServerValue.from_string hcap =
        Except.ok ⟨⟨HostKind.domain, "whois.example-registrar.com", false⟩, none, true⟩) :=
  ⟨(c8_referral_guard exNetBadReferral exServerPir "example.org" none 2).2
      "Whois Server: @@@@" "@@@@"
      (WhoIsError.mapError "The server value is not a correct host string.")
      rfl (by decide) (by decide),
   (c8_referral_guard exNetReferral exServerPir "example.org" none 2).1
      ⟨⟨HostKind.domain, "whois.example-registrar.com", false⟩, none, true⟩ 1
      (by decide)⟩

/-- A successful `_lookup_inner` with a positive budget returns exactly
the network's response, and that response offers no followable referral
(otherwise the retry channel would have been used). -/
theorem _lookup_inner_ok (net : Net) (server : WhoIsServerValue) (text : String)
    (timeout : Option Nat) (follow : Nat) (resp : String)
    (hf : 0 < follow)
    (h : _lookup_inner net server text timeout follow = Except.ok resp) :
    net timeout (serverAddr server) (queryOf server text) = Except.ok resp ∧
    followableReferral resp (serverAddr server) = false := by
  rcases hn : net timeout (serverAddr server) (queryOf server text) with e | r
  · simp only [_lookup_inner, hn] at h
    cases e <;> simp [NetError.toWhoIsError] at h
  · simp only [_lookup_inner, hn, if_pos hf] at h
    rcases hc : refServerCapture3 r with _ | cap
    · simp only [hc] at h
      simp at h
      subst h
      simp [followableReferral, hc]
    · simp only [hc] at h
      by_cases hne : cap = serverAddr server
      · simp only [hne, ne_eq, not_true_eq_false, if_false] at h
        simp at h
        subst h
        simp [followableReferral, hc, hne]
      · rw [if_pos hne] at h
        rcases hs : WhoIsServerValue.from_string cap with e2 | s2
        · simp only [hs] at h
          simp at h
          subst h
          simp [followableReferral, hc, hs, Except.isOk, Except.toBool, hne]
        · simp only [hs] at h
          simp at h

/-- C4: the referral loop cannot end in a silently truncated success.
First, whenever the budget reaches zero — in particular right after a
referral was still being offered by the last response — the lookup
returns the `Max follow` failure (the code's referral-chain-exhausted
error).  Second, any successful result is the verbatim response of the
server dialed last, and that response offers no followable referral; and
since the loop is a total function in which the budget strictly
decreases, it can never loop forever. -/
theorem c4_referral_exhaustion (net : Net) (text : String) (timeout : Option Nat) :
    (∀ server, lookup_inner net server text timeout 0 =
      Except.error (WhoIsError.mapError "Max follow")) ∧
    (∀ follow server resp, lookup_inner net server text timeout follow = Except.ok resp →
      ∃ s2, net timeout (serverAddr s2) (queryOf s2 text) = Except.ok resp ∧
        followableReferral resp (serverAddr s2) = false) := by
  constructor
  · intro server
    rfl
  · intro follow
    induction follow with
    | zero =>
      intro server resp h
      simp [lookup_inner] at h
    | succ n ih =>
      intro server resp h
      simp only [lookup_inner] at h
      rcases hres : _lookup_inner net server text timeout (n + 1) with e | x
      · rw [hres] at h
        cases e with
        | retryError s f => exact ih s resp h
        | serdeJsonError => simp at h
        | ioError => simp at h
        | domainError => simp at h
        | ipv4Error => simp at h
        | ipv6Error => simp at h
        | timeoutError => simp at h
        | mapError msg => simp at h
      · rw [hres] at h
        simp at h
        subst h
        exact ⟨server, _lookup_inner_ok net server text timeout (n + 1) x
          (Nat.succ_pos n) hres⟩

/-- Witness for C4: on the PIR fixture network a budget of 1 is exhausted
by the referral and fails with `Max follow`, while a budget of 2 reaches
the registrar and succeeds with a referral-free final response. -/
theorem c4_referral_exhaustion_witness :
    lookup_inner exNetReferral exServerPir "example.org" none 0 =
      Except.error (WhoIsError.mapError "Max follow") ∧
    (∃ s2, exNetReferral none (serverAddr s2) (queryOf s2 "example.org") =
        Except.ok "final answer" ∧
      followableReferral "final answer" (serverAddr s2) = false) :=
  ⟨(c4_referral_exhaustion exNetReferral "example.org" none).1 exServerPir,
   (c4_referral_exhaustion exNetReferral "example.org" none).2 2 exServerPir
     "final answer" (by decide)⟩

/-- With any fuel exceeding the length of the suffix, the fueled
selection loop computes the specification-side first-hit over the strip
chain. -/
theorem selectLoopF_eq_specSelect (m : List (String × WhoIsServerValue)) :
    ∀ (fuel : Nat) (tld : List Char), tld.length < fuel →
      selectLoopF m fuel tld = specSelect m tld := by
  intro fuel
  induction fuel with
  | zero => intro tld h; omega
  | succ n ih =>
    intro tld h
    rw [specSelect, stripChain.eq_def]
    rcases hg : mapGet m (String.mk tld) with _ | s
    · by_cases he : tld = []
      · subst he
        simp [selectLoopF, hg, List.findSome?_cons]
      · have hl := stripLabel_length_lt tld he
        have hrec : selectLoopF m (n + 1) tld = selectLoopF m n (stripLabel tld) := by
          simp [selectLoopF, hg, he]
        rw [hrec, ih (stripLabel tld) (by omega)]
        simp [List.findSome?_cons, hg, he, specSelect]
    · simp [selectLoopF, hg, List.findSome?_cons]

/-- C5: for every domain target without a server override, selection is
exactly the longest-suffix policy described by the spec: the selection
loop equals the first registry hit over the chain of suffixes obtained by
repeated label stripping (the full domain, then each shorter suffix, then
the empty catch-all key once); and when no suffix in the chain is
registered, the lookup fails with the `no known server` error. -/
theorem c5_selection_policy :
    (∀ m tld, selectLoop m tld = specSelect m tld) ∧
    (∀ (w : WhoIs) (net : Net) (toAscii : String → Option String)
        (options : WhoIsLookupOptions) (full : String),
      options.target = Target.domain full →
      resolveServer w options full = none →
      WhoIs.lookup w net toAscii options =
        RunResult.err (WhoIsError.mapError
          "No whois server is known for this kind of object.")) := by
  constructor
  · intro m tld
    exact selectLoopF_eq_specSelect m (tld.length + 1) tld (Nat.lt_succ_self _)
  · intro w net toAscii options full htarget hsel
    simp only [WhoIs.lookup, htarget, hsel]

/-- Witness for C5: the suffix-chain characterization holds on the `org`
registry fixture, and a lookup of `example.xyz` against it (registry
without a catch-all) fails with the `no known server` error. -/
theorem c5_selection_policy_witness :
    selectLoop exRegistryOrg.map "example.org".data =
      specSelect exRegistryOrg.map "example.org".data ∧
    WhoIs.lookup exRegistryOrg exNetHello idAscii
      ⟨Target.domain "example.xyz", none, 2, none⟩ =
      RunResult.err (WhoIsError.mapError
        "No whois server is known for this kind of object.") :=
  ⟨c5_selection_policy.1 exRegistryOrg.map "example.org".data,
   c5_selection_policy.2 exRegistryOrg exNetHello idAscii
     ⟨Target.domain "example.xyz", none, 2, none⟩ "example.xyz" rfl (by decide)⟩

/-- If every candidate in the list refuses the connection, the loop over
the candidates finds none. -/
theorem tryConnectFirst_none (ops : NetOps) :
    ∀ (l : List String), (∀ sa ∈ l, (ops.connectTo sa).isOk = false) →
      tryConnectFirst ops l = none := by
  intro l
  induction l with
  | nil => intro _; rfl
  | cons sa rest ih =>
    intro h
    have hsa := h sa (List.mem_cons_self sa rest)
    rcases hc : ops.connectTo sa with e | u
    · simp only [tryConnectFirst, hc]
      exact ih (fun x hx => h x (List.mem_cons_of_mem sa hx))
    · rw [hc] at hsa
      simp [Except.isOk, Except.toBool] at hsa

/-- The loop over the candidates returns the first one that accepts a
connection: if candidate `i` succeeds and every earlier candidate fails,
the result is candidate `i`. -/
theorem tryConnectFirst_first (ops : NetOps) :
    ∀ (l : List String) (i : Nat) (hi : i < l.length),
      (ops.connectTo (l.get ⟨i, hi⟩)).isOk = true →
      (∀ j (hj : j < i), (ops.connectTo (l.get ⟨j, Nat.lt_trans hj hi⟩)).isOk = false) →
      tryConnectFirst ops l = some (l.get ⟨i, hi⟩) := by
  intro l
  induction l with
  | nil => intro i hi; simp at hi
  | cons sa rest ih =>
    intro i hi hok hbefore
    cases i with
    | zero =>
      rcases hc : ops.connectTo sa with e | u
      · simp only [List.get] at hok
        rw [hc] at hok
        simp [Except.isOk, Except.toBool] at hok
      · simp [tryConnectFirst, hc]
    | succ k =>
      have hfail0 := hbefore 0 (Nat.succ_pos k)
      simp only [List.get] at hfail0
      rcases hc : ops.connectTo sa with e | u
      · simp only [tryConnectFirst, hc]
        exact ih k (Nat.lt_of_succ_lt_succ hi) hok
          (fun j hj => hbefore (j + 1) (Nat.succ_lt_succ hj))
      · rw [hc] at hfail0
        simp [Except.isOk, Except.toBool] at hfail0

/-- C6: when resolution yields more than one candidate address (written
`pre ++ [last]` with `pre` non-empty), the candidates before the last are
tried in order with every failure silently discarded: if one of them is
the first to accept, its connection is the result and the earlier errors
vanish; only when all of them fail is the last candidate attempted, and
the last candidate's own outcome — connection or error — is what the
caller sees. -/
theorem c6_candidate_fallback (ops : NetOps) (t : Nat) (addr : String)
    (pre : List String) (last : String)
    (hres : ops.resolve addr = Except.ok (pre ++ [last])) (hne : pre ≠ []) :
    ((∀ sa ∈ pre, (ops.connectTo sa).isOk = false) →
      connectPhase ops (some t) addr =
        (match ops.connectTo last with
         | Except.ok _ => ConnResult.conn last
         | Except.error e => ConnResult.err e)) ∧
    (∀ i (hi : i < pre.length), (ops.connectTo (pre.get ⟨i, hi⟩)).isOk = true →
      (∀ j (hj : j < i), (ops.connectTo (pre.get ⟨j, Nat.lt_trans hj hi⟩)).isOk = false) →
      connectPhase ops (some t) addr = ConnResult.conn (pre.get ⟨i, hi⟩)) := by
  have hlast : (pre ++ [last]).getLast? = some last := List.getLast?_concat pre
  have htake : (pre ++ [last]).take ((pre ++ [last]).length - 1) = pre := by
    have hlen : (pre ++ [last]).length - 1 = pre.length := by
      simp
    rw [hlen]
    exact List.take_left pre [last]
  constructor
  · intro hfail
    have hnone : tryConnectFirst ops ((pre ++ [last]).take ((pre ++ [last]).length - 1)) =
        none := by
      rw [htake]
      exact tryConnectFirst_none ops pre hfail
    rcases hc : ops.connectTo last with e | u <;>
      simp only [connectPhase, hres, hlast, hnone, hc]
  · intro i hi hok hbefore
    have hsome : tryConnectFirst ops ((pre ++ [last]).take ((pre ++ [last]).length - 1)) =
        some (pre.get ⟨i, hi⟩) := by
      rw [htake]
      exact tryConnectFirst_first ops pre i hi hok hbefore
    simp only [connectPhase, hres, hlast, hsome]

/-- Witness for C6, on two-candidate fixtures: when only the second
(last) candidate accepts, its connection is surfaced; when the first
accepts, it wins immediately. -/
theorem c6_candidate_fallback_witness :
    connectPhase exOpsSecondWorks (some 60000) "whois.pir.org:43" =
      ConnResult.conn "192.0.2.2:43" ∧
    connectPhase exOpsFirstWorks (some 60000) "whois.pir.org:43" =
      ConnResult.conn "192.0.2.1:43" :=
  ⟨(c6_candidate_fallback exOpsSecondWorks 60000 "whois.pir.org:43"
      ["192.0.2.1:43"] "192.0.2.2:43" rfl (by decide)).1 (by decide),
   (c6_candidate_fallback exOpsFirstWorks 60000 "whois.pir.org:43"
      ["192.0.2.1:43"] "192.0.2.2:43" rfl (by decide)).2 0 (by decide) (by decide)
      (fun j hj => absurd hj (Nat.not_lt_zero j))⟩

/-- Every operation in the post-connection block is a write, flush or
read issued with no deadline. -/
theorem mem_afterConnectOps (ops : NetOps) (op : IOOp)
    (h : op ∈ afterConnectOps ops) :
    op.deadline = none ∧ op.isConnectAttempt = false := by
  rcases hw : ops.writeRes with e | u <;> rcases hf : ops.flushRes with e2 | u2 <;>
    simp [afterConnectOps, hw, hf] at h <;>
    rcases h with h | h | h <;>
    (try subst h) <;> simp_all [IOOp.deadline, IOOp.isConnectAttempt]

/-- Every operation in the candidate loop is a connection attempt under
the given deadline. -/
theorem mem_connectAttemptOps (ops : NetOps) (d : Option Nat) :
    ∀ (l : List String) (op : IOOp), op ∈ connectAttemptOps ops d l →
      op = IOOp.connectAttempt d := by
  intro l
  induction l with
  | nil => intro op h; simp [connectAttemptOps] at h
  | cons sa rest ih =>
    intro op h
    rcases hc : ops.connectTo sa with e | u <;> simp [connectAttemptOps, hc] at h
    · rcases h with h | h
      · exact h
      · exact ih op h
    · exact h

/-- C3 (amended): when a timeout is configured it bounds each individual
connection attempt and nothing else — the address resolution and every
write, flush and read on the established connection are issued with no
deadline (the read/write timeout calls are commented out in the source);
when no timeout is configured, no operation carries any deadline. -/
theorem c3_deadline_policy :
    (∀ (ops : NetOps) (t : Nat) (addr : String) (op : IOOp),
      op ∈ _lookup_inner_io ops (some t) addr →
        (op.isConnectAttempt = true → op.deadline = some t) ∧
        (op.isConnectAttempt = false → op.deadline = none)) ∧
    (∀ (ops : NetOps) (addr : String) (op : IOOp),
      op ∈ _lookup_inner_io ops none addr → op.deadline = none) := by
  constructor
  · intro ops t addr op h
    simp only [_lookup_inner_io] at h
    rcases List.mem_cons.mp h with h0 | h1
    · subst h0
      simp [IOOp.deadline, IOOp.isConnectAttempt]
    · rcases hr : ops.resolve addr with e | socket_addrs
      · simp only [hr] at h1
        simp at h1
      · simp only [hr] at h1
        rcases hl : socket_addrs.getLast? with _ | lastAddr
        · simp only [hl] at h1
          simp at h1
        · simp only [hl] at h1
          simp only [List.mem_append] at h1
          rcases h1 with h2 | h3
          · have := mem_connectAttemptOps ops (some t) _ op h2
            subst this
            simp [IOOp.deadline, IOOp.isConnectAttempt]
          · rcases htc : tryConnectFirst ops
                (socket_addrs.take (socket_addrs.length - 1)) with _ | sa
            · simp only [htc] at h3
              rcases List.mem_cons.mp h3 with h4 | h5
              · subst h4
                simp [IOOp.deadline, IOOp.isConnectAttempt]
              · rcases hc : ops.connectTo lastAddr with e2 | u2
                · simp only [hc] at h5
                  simp at h5
                · simp only [hc] at h5
                  have := mem_afterConnectOps ops op h5
                  exact ⟨fun hop => absurd hop (by simp [this.2]), fun _ => this.1⟩
            · simp only [htc] at h3
              have := mem_afterConnectOps ops op h3
              exact ⟨fun hop => absurd hop (by simp [this.2]), fun _ => this.1⟩
  · intro ops addr op h
    simp only [_lookup_inner_io] at h
    rcases List.mem_cons.mp h with h0 | h1
    · subst h0
      simp [IOOp.deadline]
    · rcases List.mem_cons.mp h1 with h2 | h3
      · subst h2
        simp [IOOp.deadline]
      · rcases hc : ops.connectHost addr with e | u
        · simp only [hc] at h3
          simp at h3
        · simp only [hc] at h3
          exact (mem_afterConnectOps ops op h3).1

/-- Witness for C3 at the happy-path fixture: the single connection
attempt in the timed trace carries the configured deadline, and an
operation of the untimed trace carries none. -/
theorem c3_deadline_policy_witness :
    (((IOOp.connectAttempt (some 60000)).isConnectAttempt = true →
        (IOOp.connectAttempt (some 60000)).deadline = some 60000) ∧
      ((IOOp.connectAttempt (some 60000)).isConnectAttempt = false →
        (IOOp.connectAttempt (some 60000)).deadline = none)) ∧
    (IOOp.writeAll none).deadline = none :=
  ⟨c3_deadline_policy.1 exOpsHappy 60000 "whois.pir.org:43"
      (IOOp.connectAttempt (some 60000)) (by decide),
   c3_deadline_policy.2 exOpsHappy "whois.pir.org:43" (IOOp.writeAll none) (by decide)⟩

/-- Counterexample for C3 as stated: the claim asserts the configured
timeout also bounds each write and read on the established connection,
but on a successful single-candidate run with a 60000 ms timeout the
trace contains the write with no deadline, and contains no write bounded
by the timeout (the same holds for flush and read). -/
theorem c3_write_read_unbounded_cex :
    IOOp.writeAll none ∈ _lookup_inner_io exOpsHappy (some 60000) "whois.pir.org:43" ∧
    IOOp.writeAll (some 60000) ∉ _lookup_inner_io exOpsHappy (some 60000) "whois.pir.org:43" ∧
    IOOp.readToEnd none ∈ _lookup_inner_io exOpsHappy (some 60000) "whois.pir.org:43" ∧
    IOOp.readToEnd (some 60000) ∉ _lookup_inner_io exOpsHappy (some 60000) "whois.pir.org:43" := by
  decide

/-- A successfully decoded sequence consumes at least the lead byte: the
remaining bytes are a suffix of the rest, which bounds the fuel the
validation loop needs. -/
theorem decodeOne_rem_le (b0 : Nat) (rest : List Nat) (v : Nat) (rem : List Nat)
    (h : decodeOne b0 rest = some (v, rem)) : rem.length ≤ rest.length := by
  unfold decodeOne at h
  repeat' split at h
  all_goals simp_all
  all_goals omega

/-- The fuel of the validation loop is irrelevant as soon as it covers
the number of bytes. -/
theorem decodeUtf8F_fuel (f1 : Nat) :
    ∀ (f2 : Nat) (bytes : List Nat), bytes.length ≤ f1 → bytes.length ≤ f2 →
      decodeUtf8F f1 bytes = decodeUtf8F f2 bytes := by
  induction f1 with
  | zero =>
    intro f2 bytes h1 h2
    have : bytes = [] := List.eq_nil_of_length_eq_zero (Nat.le_zero.mp h1)
    subst this
    cases f2 <;> rfl
  | succ n ih =>
    intro f2 bytes h1 h2
    cases bytes with
    | nil => cases f2 <;> rfl
    | cons b0 rest =>
      cases f2 with
      | zero => simp at h2
      | succ m =>
        rcases hd : decodeOne b0 rest with _ | ⟨v, rem⟩
        · simp only [decodeUtf8F, hd]
        · have hle := decodeOne_rem_le b0 rest v rem hd
          simp only [decodeUtf8F, hd]
          simp only [List.length_cons] at h1 h2
          rw [ih m rem (by omega) (by omega)]

/-- The decoder accepts what the standard encoder produces: decoding the
encoding of one character yields exactly its scalar value and consumes
exactly its bytes, for every Unicode scalar value. -/
theorem decodeOne_encodeChar (c : Char) (bs : List Nat) :
    ∃ b0 tail, utf8EncodeChar c = b0 :: tail ∧
      decodeOne b0 (tail ++ bs) = some (c.toNat, bs) := by
  have hv : c.toNat < 0xd800 ∨ (0xdfff < c.toNat ∧ c.toNat < 0x110000) := c.valid
  by_cases h1 : c.toNat < 0x80
  · refine ⟨c.toNat, [], by simp [utf8EncodeChar, h1], ?_⟩
    simp only [List.nil_append, decodeOne, if_pos h1]
  · by_cases h2 : c.toNat < 0x800
    · refine ⟨0xC0 + c.toNat / 64, [0x80 + c.toNat % 64],
        by simp [utf8EncodeChar, h1, h2], ?_⟩
      have hb0a : ¬(0xC0 + c.toNat / 64 < 0x80) := by omega
      have hb0b : ¬(0xC0 + c.toNat / 64 < 0xC2) := by omega
      have hb0c : 0xC0 + c.toNat / 64 < 0xE0 := by omega
      have hb1 : isCont (0x80 + c.toNat % 64) = true := by
        simp only [isCont, Bool.and_eq_true, decide_eq_true_eq]
        omega
      have harg : (0xC0 + c.toNat / 64 - 0xC0) * 64 + (0x80 + c.toNat % 64 - 0x80) =
          c.toNat := by
        omega
      simp only [List.cons_append, List.nil_append, decodeOne,
        if_neg hb0a, if_neg hb0b, if_pos hb0c, if_pos hb1, harg]
    · by_cases h3 : c.toNat < 0x10000
      · refine ⟨0xE0 + c.toNat / 4096, [0x80 + c.toNat / 64 % 64, 0x80 + c.toNat % 64],
          by simp [utf8EncodeChar, h1, h2, h3], ?_⟩
        have hb0a : ¬(0xE0 + c.toNat / 4096 < 0x80) := by omega
        have hb0b : ¬(0xE0 + c.toNat / 4096 < 0xC2) := by omega
        have hb0c : ¬(0xE0 + c.toNat / 4096 < 0xE0) := by omega
        have hb0d : 0xE0 + c.toNat / 4096 < 0xF0 := by omega
        have hcond : (((0xE0 + c.toNat / 4096 == 0xE0 &&
              0xA0 ≤ 0x80 + c.toNat / 64 % 64 && 0x80 + c.toNat / 64 % 64 < 0xC0) ||
            (0xE1 ≤ 0xE0 + c.toNat / 4096 && 0xE0 + c.toNat / 4096 < 0xED &&
              isCont (0x80 + c.toNat / 64 % 64)) ||
            (0xE0 + c.toNat / 4096 == 0xED &&
              0x80 ≤ 0x80 + c.toNat / 64 % 64 && 0x80 + c.toNat / 64 % 64 < 0xA0) ||
            (0xEE ≤ 0xE0 + c.toNat / 4096 && isCont (0x80 + c.toNat / 64 % 64))) &&
            isCont (0x80 + c.toNat % 64)) = true := by
          simp only [isCont, Bool.and_eq_true, Bool.or_eq_true, beq_iff_eq,
            decide_eq_true_eq]
          omega
        have harg : (0xE0 + c.toNat / 4096 - 0xE0) * 4096 +
            (0x80 + c.toNat / 64 % 64 - 0x80) * 64 + (0x80 + c.toNat % 64 - 0x80) =
            c.toNat := by
          omega
        simp only [List.cons_append, List.nil_append, decodeOne,
          if_neg hb0a, if_neg hb0b, if_neg hb0c, if_pos hb0d, if_pos hcond, harg]
      · have h4 : c.toNat < 0x110000 := by omega
        refine ⟨0xF0 + c.toNat / 262144,
          [0x80 + c.toNat / 4096 % 64, 0x80 + c.toNat / 64 % 64, 0x80 + c.toNat % 64],
          by simp [utf8EncodeChar, h1, h2, h3], ?_⟩
        have hb0a : ¬(0xF0 + c.toNat / 262144 < 0x80) := by omega
        have hb0b : ¬(0xF0 + c.toNat / 262144 < 0xC2) := by omega
        have hb0c : ¬(0xF0 + c.toNat / 262144 < 0xE0) := by omega
        have hb0d : ¬(0xF0 + c.toNat / 262144 < 0xF0) := by omega
        have hb0e : 0xF0 + c.toNat / 262144 < 0xF5 := by omega
        have hcond : (((0xF0 + c.toNat / 262144 == 0xF0 &&
              0x90 ≤ 0x80 + c.toNat / 4096 % 64 && 0x80 + c.toNat / 4096 % 64 < 0xC0) ||
            (0xF1 ≤ 0xF0 + c.toNat / 262144 && 0xF0 + c.toNat / 262144 < 0xF4 &&
              isCont (0x80 + c.toNat / 4096 % 64)) ||
            (0xF0 + c.toNat / 262144 == 0xF4 &&
              0x80 ≤ 0x80 + c.toNat / 4096 % 64 && 0x80 + c.toNat / 4096 % 64 < 0x90)) &&
            isCont (0x80 + c.toNat / 64 % 64) && isCont (0x80 + c.toNat % 64)) = true := by
          simp only [isCont, Bool.and_eq_true, Bool.or_eq_true, beq_iff_eq,
            decide_eq_true_eq]
          omega
        have harg : (0xF0 + c.toNat / 262144 - 0xF0) * 262144 +
            (0x80 + c.toNat / 4096 % 64 - 0x80) * 4096 +
            (0x80 + c.toNat / 64 % 64 - 0x80) * 64 + (0x80 + c.toNat % 64 - 0x80) =
            c.toNat := by
          omega
        simp only [List.cons_append, List.nil_append, decodeOne,
          if_neg hb0a, if_neg hb0b, if_neg hb0c, if_neg hb0d, if_pos hb0e,
          if_pos hcond, harg]

/-- Decoding the UTF-8 encoding of one character consumes exactly that
character. -/
theorem decodeUtf8_encodeChar (c : Char) (bs : List Nat) :
    decodeUtf8 (utf8EncodeChar c ++ bs) = (decodeUtf8 bs).map (fun cs => c :: cs) := by
  obtain ⟨b0, tail, henc, hdec⟩ := decodeOne_encodeChar c bs
  rw [decodeUtf8, decodeUtf8, henc, List.cons_append]
  have hlen : (b0 :: (tail ++ bs)).length = (tail ++ bs).length + 1 := by simp
  rw [hlen]
  simp only [decodeUtf8F, hdec]
  rw [decodeUtf8F_fuel (tail ++ bs).length bs.length bs (by simp) (by omega),
    Char.ofNat_toNat]

/-- Decoding the UTF-8 encoding of any character list yields it back. -/
theorem decodeUtf8_encodeList :
    ∀ cs : List Char,
      decodeUtf8 (cs.foldr (fun c acc => utf8EncodeChar c ++ acc) []) = some cs := by
  intro cs
  induction cs with
  | nil => rfl
  | cons c rest ih =>
    simp only [List.foldr_cons, decodeUtf8_encodeChar, ih]
    rfl

/-- C2 (amended): the read step decodes the response as strict UTF-8,
not lossily: the UTF-8 encoding of any text is returned as exactly that
text, and any byte sequence that fails UTF-8 validation makes the read
fail with an IO error (`ErrorKind::InvalidData`) instead of being
returned with replacement characters. -/
theorem c2_strict_utf8_read :
    (∀ s : String, read_to_string (utf8Encode s) = Except.ok s) ∧
    (∀ bytes, decodeUtf8 bytes = none →
      read_to_string bytes = Except.error WhoIsError.ioError) := by
  constructor
  · intro s
    have h := decodeUtf8_encodeList s.data
    simp only [read_to_string, utf8Encode, h]
  · intro bytes h
    simp only [read_to_string, h]

/-- Witness for C2 on a concrete valid encoding and the concrete invalid
byte `0xFF`. -/
theorem c2_strict_utf8_read_witness :
    read_to_string (utf8Encode "ok") = Except.ok "ok" ∧
    read_to_string [255] = Except.error WhoIsError.ioError :=
  ⟨c2_strict_utf8_read.1 "ok", c2_strict_utf8_read.2 [255] rfl⟩

/-- Counterexample for C2 as stated: the response `[0xFF]` contains an
invalid UTF-8 sequence, and the read step fails with an IO error instead
of returning lossily decoded text. -/
theorem c2_lossy_decode_cex :
    decodeUtf8 [255] = none ∧
    read_to_string [255] = Except.error WhoIsError.ioError ∧
    (read_to_string [255]).isOk = false := by
  refine ⟨rfl, rfl, rfl⟩

end WhoisRust
